import Mathlib

/-!
Shallow embedding of the PowerGuard dashboard (`streamlit_app.py`): the
reading-ingestion / alert-classification step (`simulate`) and the
aggregation pipeline (filtering, the group-by views, the rolling
average, the headline metrics), together with proofs of the spec's
claims about them.
-/

namespace PowerGuard

/-- A timestamp as stored in `reading_date` / `alert_date`
(format `"%Y-%m-%d %H:%M:%S"`): `day` is the calendar date encoded as an
epoch-day ordinal, `hour`/`minute`/`second` are the time-of-day
components.  `.dt.date` is `day`, `.dt.hour` is `hour`. -/
structure Timestamp where
  day : Int
  hour : Nat
  minute : Nat
  second : Nat
deriving DecidableEq, Repr

/-- Chronological order on timestamps (the order pandas uses on a
datetime group key). -/
def Timestamp.le (t u : Timestamp) : Prop :=
  t.day < u.day ∨ (t.day = u.day ∧ (t.hour < u.hour ∨ (t.hour = u.hour ∧
    (t.minute < u.minute ∨ (t.minute = u.minute ∧ t.second ≤ u.second)))))

instance : DecidableRel Timestamp.le := fun t u => by
  unfold Timestamp.le; infer_instance

/-- `THRESHOLD = 250`, the theft-alert cutoff. -/
def THRESHOLD : ℚ := 250

/-- Row of the `CONSUMER` table. -/
structure Consumer where
  consumer_id : Int
  name : String
  area : String
deriving DecidableEq, Repr

/-- Row of the `METER` table. -/
structure Meter where
  meter_id : Int
  consumer_id : Int
  meter_type : String
deriving DecidableEq, Repr

/-- Row of the `CONSUMPTION` table (the autoincrement `id` is omitted;
rows are kept in insertion order). -/
structure ConsumptionRow where
  meter_id : Int
  units : ℚ
  reading_date : Timestamp
deriving DecidableEq, Repr

/-- Row of the `ALERT` table (the autoincrement `id` is omitted; rows
are kept in insertion order). -/
structure Alert where
  meter_id : Int
  units : ℚ
  alert_type : String
  alert_date : Timestamp
deriving DecidableEq, Repr

/-- The four tables of the SQLite database. -/
structure DBState where
  consumers : List Consumer
  meters : List Meter
  consumption : List ConsumptionRow
  alerts : List Alert
deriving DecidableEq, Repr

/-- `simulate()`: insert one `CONSUMPTION` row, and additionally an
`ALERT` row exactly when `units > THRESHOLD`.  The random draws
(`meter`, `units`) and the wall clock (`ts`) are taken as parameters;
the function inspects no table before writing. -/
def simulate (meter : Int) (units : ℚ) (ts : Timestamp) (db : DBState) : DBState :=
  let db1 : DBState := { db with consumption := db.consumption ++ [⟨meter, units, ts⟩] }
  if THRESHOLD < units then
    { db1 with alerts := db1.alerts ++ [⟨meter, units, "POSSIBLE THEFT", ts⟩] }
  else db1

/-- One row of `base_df`: a `CONSUMPTION` row joined through
`METER` → `CONSUMER` to attach `area`. -/
structure Reading where
  area : String
  meter_id : Int
  units : ℚ
  reading_date : Timestamp
deriving DecidableEq, Repr

/-- The sidebar filter state.  `none` encodes the `"All"` sentinel for
area and meter, and a `date_range` widget value that does not hold
exactly two dates; the selected meter is the string shown in the
dropdown (`meter_id.astype(str)`). -/
structure Filter where
  sel_area : Option String
  sel_meter : Option String
  date_range : Option (Int × Int)
deriving DecidableEq, Repr

/-- The three successive narrowing steps that build `filtered` from
`base_df` (area equality, stringified meter-id equality, inclusive date
range on `reading_date.dt.date`). -/
def applyFilter (f : Filter) (base : List Reading) : List Reading :=
  let f1 := match f.sel_area with
    | none => base
    | some a => base.filter fun r => decide (r.area = a)
  let f2 := match f.sel_meter with
    | none => f1
    | some m => f1.filter fun r => decide (toString r.meter_id = m)
  match f.date_range with
  | none => f2
  | some (s, e) =>
      f2.filter fun r => decide (s ≤ r.reading_date.day) && decide (r.reading_date.day ≤ e)

/-- `df.groupby(key, as_index=False)[val].sum()`: one output row per
distinct key, keys sorted by `r`, value the sum of `val` over the
group. -/
def groupSum {α κ : Type} [DecidableEq κ] (r : κ → κ → Prop) [DecidableRel r]
    (key : α → κ) (val : α → ℚ) (rows : List α) : List (κ × ℚ) :=
  ((rows.map key).dedup.insertionSort r).map
    fun k => (k, ((rows.filter fun a => decide (key a = k)).map val).sum)

/-- `df.groupby(key, as_index=False).size()`: one output row per
distinct key, keys sorted by `r`, value the number of rows in the
group. -/
def groupCount {α κ : Type} [DecidableEq κ] (r : κ → κ → Prop) [DecidableRel r]
    (key : α → κ) (rows : List α) : List (κ × Nat) :=
  ((rows.map key).dedup.insertionSort r).map
    fun k => (k, (rows.filter fun a => decide (key a = k)).length)

/-- `area_df = filtered.groupby("area", as_index=False)["units"].sum()`. -/
def area_df (filtered : List Reading) : List (String × ℚ) :=
  groupSum (· ≤ ·) Reading.area Reading.units filtered

/-- `trend_df = filtered.groupby("reading_date", as_index=False)["units"].sum()`. -/
def trend_df (filtered : List Reading) : List (Timestamp × ℚ) :=
  groupSum Timestamp.le (fun r => r.reading_date) Reading.units filtered

/-- `Series.rolling(3).mean()`: entry `i` is the mean of entries
`i-2, i-1, i` when `i ≥ 2`, and `NaN` (modelled as `none`) for the first
two entries. -/
def rolling3 (l : List ℚ) : List (Option ℚ) :=
  (List.range l.length).map fun i =>
    if i < 2 then none
    else match l.get? (i - 2), l.get? (i - 1), l.get? i with
      | some a, some b, some c => some ((a + b + c) / 3)
      | _, _, _ => none

/-- The smoothed-trend table: `trend_df` with the `rolling_avg` column
attached, built only when `len(trend_df) >= 3` (otherwise the chart is
skipped, modelled as the empty table). -/
def smoothed_df (filtered : List Reading) : List (Timestamp × ℚ × Option ℚ) :=
  let t := trend_df filtered
  if 3 ≤ t.length then
    (t.zip (rolling3 (t.map Prod.snd))).map fun p => (p.1.1, p.1.2, p.2)
  else []

/-- Row of `heat_df`: a `filtered` row plus the string column
`hour = reading_date.dt.hour.astype(str)`. -/
structure HeatRow where
  area : String
  meter_id : Int
  units : ℚ
  reading_date : Timestamp
  hour : String
deriving DecidableEq, Repr

/-- `heat_df = filtered.copy(); heat_df["hour"] = ...dt.hour.astype(str)`. -/
def heat_df (filtered : List Reading) : List HeatRow :=
  filtered.map fun r => ⟨r.area, r.meter_id, r.units, r.reading_date, toString r.reading_date.hour⟩

/-- `hour_df = heat_df.groupby("hour", as_index=False)["units"].sum()`:
the group key is the hour as a string, so pandas sorts the output by
the lexicographic string order. -/
def hour_df (filtered : List Reading) : List (String × ℚ) :=
  groupSum (· ≤ ·) HeatRow.hour HeatRow.units (heat_df filtered)

/-- `tdf = alert_df.groupby(alert_df["alert_date"].dt.date, as_index=False).size()`,
the theft-alert trend table. -/
def tdf (alerts : List Alert) : List (Int × Nat) :=
  groupCount (· ≤ ·) (fun a => a.alert_date.day) alerts

/-- The theft-alert trend view as the dashboard computes it: from the
full `alert_df`, ignoring `filtered` and the sidebar filter. -/
def alertTrendView (base : List Reading) (f : Filter) (alerts : List Alert) : List (Int × Nat) :=
  tdf alerts

/-- `m3.metric("Normal Usage", max(len(filtered)-len(alert_df),0))`. -/
def normalUsageMetric (base : List Reading) (f : Filter) (alerts : List Alert) : Int :=
  max (((applyFilter f base).length : Int) - (alerts.length : Int)) 0

/-- The six tables backing the rendered charts. -/
structure Views where
  area_v : List (String × ℚ)
  trend_v : List (Timestamp × ℚ)
  smoothed_v : List (Timestamp × ℚ × Option ℚ)
  heat_v : List HeatRow
  hour_v : List (String × ℚ)
  alert_v : List (Int × Nat)
deriving DecidableEq, Repr

/-- One rendering pass of the script: on an empty `base_df` it warns
and calls `st.stop()` before any view is computed (modelled as `none`);
otherwise every view is recomputed from the filtered readings, and the
alert trend from the full alert table. -/
def dashboard (base : List Reading) (alerts : List Alert) (f : Filter) : Option Views :=
  if base = [] then none
  else
    let filtered := applyFilter f base
    some ⟨area_df filtered, trend_df filtered, smoothed_df filtered,
          heat_df filtered, hour_df filtered, tdf alerts⟩

/-! ### General lemmas about the group-by operations -/

/-- Summing `x` at a single key of a nodup key list, zero elsewhere. -/
theorem sum_map_single {κ : Type} [DecidableEq κ] (k0 : κ) (x : ℚ) :
    ∀ K : List κ, K.Nodup → k0 ∈ K →
      (K.map fun k => if k0 = k then x else 0).sum = x := by
  intro K
  induction K with
  | nil => intro _ h; cases h
  | cons k K' ih =>
    intro hnd hmem
    rcases List.mem_cons.mp hmem with rfl | hmem'
    · simp only [List.map_cons, List.sum_cons, if_pos rfl]
      have hz : (K'.map fun k' => if k0 = k' then x else 0).sum = 0 := by
        apply List.sum_eq_zero
        intro y hy
        rw [List.mem_map] at hy
        obtain ⟨k', hk', rfl⟩ := hy
        rw [if_neg]
        rintro rfl
        exact (List.nodup_cons.mp hnd).1 hk'
      rw [hz, add_zero]
      simp
    · have hne : k0 ≠ k := by
        rintro rfl
        exact (List.nodup_cons.mp hnd).1 hmem'
      simp only [List.map_cons, List.sum_cons, if_neg hne, zero_add]
      exact ih (List.nodup_cons.mp hnd).2 hmem'

/-- Fiberwise summation: summing the per-group sums over any nodup key
list covering the rows gives the total sum. -/
theorem sum_groups {α κ : Type} [DecidableEq κ] (key : α → κ) (val : α → ℚ) :
    ∀ (rows : List α) (K : List κ), K.Nodup → (∀ a ∈ rows, key a ∈ K) →
      (K.map fun k => ((rows.filter fun a => decide (key a = k)).map val).sum).sum
        = (rows.map val).sum := by
  intro rows
  induction rows with
  | nil => intro K _ _; simp
  | cons a rest ih =>
    intro K hnd hkeys
    have hsplit : ∀ k : κ,
        ((((a :: rest).filter fun x => decide (key x = k)).map val).sum)
          = (if key a = k then val a else 0)
            + ((rest.filter fun x => decide (key x = k)).map val).sum := by
      intro k
      by_cases h : key a = k
      · simp [List.filter_cons, h]
      · simp [List.filter_cons, h]
    calc (K.map fun k =>
            (((a :: rest).filter fun x => decide (key x = k)).map val).sum).sum
        = (K.map fun k => (if key a = k then val a else 0)
            + ((rest.filter fun x => decide (key x = k)).map val).sum).sum := by
          congr 1
          exact List.map_congr_left fun k _ => hsplit k
      _ = (K.map fun k => if key a = k then val a else 0).sum
            + (K.map fun k =>
                ((rest.filter fun x => decide (key x = k)).map val).sum).sum := by
          rw [← List.sum_map_add]
      _ = val a + (rest.map val).sum := by
          rw [sum_map_single (key a) (val a) K hnd (hkeys a (by simp)),
            ih K hnd fun x hx => hkeys x (by simp [hx])]
      _ = ((a :: rest).map val).sum := by simp

/-- The key column of a `groupSum` is the sorted dedup of the keys. -/
theorem groupSum_map_fst {α κ : Type} [DecidableEq κ] (r : κ → κ → Prop) [DecidableRel r]
    (key : α → κ) (val : α → ℚ) (rows : List α) :
    (groupSum r key val rows).map Prod.fst = (rows.map key).dedup.insertionSort r := by
  unfold groupSum
  rw [List.map_map]
  exact List.map_id' _

/-- Membership in a `groupSum` output. -/
theorem mem_groupSum {α κ : Type} [DecidableEq κ] (r : κ → κ → Prop) [DecidableRel r]
    (key : α → κ) (val : α → ℚ) (rows : List α) (k0 : κ) (v0 : ℚ) :
    (k0, v0) ∈ groupSum r key val rows ↔
      (∃ a ∈ rows, key a = k0)
        ∧ v0 = ((rows.filter fun a => decide (key a = k0)).map val).sum := by
  unfold groupSum
  rw [List.mem_map]
  constructor
  · rintro ⟨k, hk, heq⟩
    rw [Prod.mk.injEq] at heq
    obtain ⟨rfl, rfl⟩ := heq
    rw [List.mem_insertionSort, List.mem_dedup, List.mem_map] at hk
    exact ⟨hk, rfl⟩
  · rintro ⟨⟨a, ha, hkey⟩, hval⟩
    refine ⟨k0, ?_, by rw [hval]⟩
    rw [List.mem_insertionSort, List.mem_dedup, List.mem_map]
    exact ⟨a, ha, hkey⟩

/-- The value column of a `groupSum` sums to the total of `val`. -/
theorem groupSum_sum {α κ : Type} [DecidableEq κ] (r : κ → κ → Prop) [DecidableRel r]
    (key : α → κ) (val : α → ℚ) (rows : List α) :
    ((groupSum r key val rows).map Prod.snd).sum = (rows.map val).sum := by
  have hperm : ((rows.map key).dedup.insertionSort r).Perm (rows.map key).dedup :=
    List.perm_insertionSort r _
  have hmap := hperm.map fun k => ((rows.filter fun a => decide (key a = k)).map val).sum
  have hcol : (groupSum r key val rows).map Prod.snd
      = ((rows.map key).dedup.insertionSort r).map
          fun k => ((rows.filter fun a => decide (key a = k)).map val).sum := by
    unfold groupSum
    rw [List.map_map]
    rfl
  rw [hcol, hmap.sum_eq]
  exact sum_groups key val rows (rows.map key).dedup (List.nodup_dedup _)
    fun a ha => by rw [List.mem_dedup, List.mem_map]; exact ⟨a, ha, rfl⟩

/-- The key column of a `groupCount` is the sorted dedup of the keys. -/
theorem groupCount_map_fst {α κ : Type} [DecidableEq κ] (r : κ → κ → Prop) [DecidableRel r]
    (key : α → κ) (rows : List α) :
    (groupCount r key rows).map Prod.fst = (rows.map key).dedup.insertionSort r := by
  unfold groupCount
  rw [List.map_map]
  exact List.map_id' _

/-- Membership in a `groupCount` output. -/
theorem mem_groupCount {α κ : Type} [DecidableEq κ] (r : κ → κ → Prop) [DecidableRel r]
    (key : α → κ) (rows : List α) (k0 : κ) (c0 : Nat) :
    (k0, c0) ∈ groupCount r key rows ↔
      (∃ a ∈ rows, key a = k0)
        ∧ c0 = (rows.filter fun a => decide (key a = k0)).length := by
  unfold groupCount
  rw [List.mem_map]
  constructor
  · rintro ⟨k, hk, hrow⟩
    rw [Prod.mk.injEq] at hrow
    obtain ⟨rfl, rfl⟩ := hrow
    rw [List.mem_insertionSort, List.mem_dedup, List.mem_map] at hk
    exact ⟨hk, rfl⟩
  · rintro ⟨⟨a, ha, hkey⟩, hc⟩
    refine ⟨k0, ?_, by rw [hc]⟩
    rw [List.mem_insertionSort, List.mem_dedup, List.mem_map]
    exact ⟨a, ha, hkey⟩

/-- A `groupCount` output is empty exactly on empty input. -/
theorem groupCount_eq_nil {α κ : Type} [DecidableEq κ] (r : κ → κ → Prop) [DecidableRel r]
    (key : α → κ) (rows : List α) :
    groupCount r key rows = [] ↔ rows = [] := by
  unfold groupCount
  rw [List.map_eq_nil_iff]
  constructor
  · intro h
    have hperm := List.perm_insertionSort r (rows.map key).dedup
    rw [h] at hperm
    have hnil : (rows.map key).dedup = [] := hperm.symm.eq_nil
    rw [List.dedup_eq_nil, List.map_eq_nil_iff] at hnil
    exact hnil
  · rintro rfl
    simp

/-! ### Concrete sample data used by counterexamples and witnesses -/

/-- `2024-01-01 08:00:00` (day counted as epoch-day ordinal 0 here). -/
def t0 : Timestamp := ⟨0, 8, 0, 0⟩

/-- A database with all four tables empty — in particular no meter. -/
def emptyDB : DBState := ⟨[], [], [], []⟩

/-- A sample joined reading row. -/
def rW : Reading := ⟨"Chennai", 101, 300, t0⟩

/-- Two sample alert rows. -/
def aW1 : Alert := ⟨101, 300, "POSSIBLE THEFT", t0⟩

def aW2 : Alert := ⟨102, 290, "POSSIBLE THEFT", t0⟩

/-- The filter with every control on `"All"` / no date narrowing. -/
def fAll : Filter := ⟨none, none, none⟩

/-! ### C1 -/

/-- C1: `simulate` appends exactly the one new reading, and appends
exactly one `"POSSIBLE THEFT"` alert carrying the same meter id, units
and timestamp precisely when `units > THRESHOLD`; at or below the
threshold the alert table is untouched. -/
theorem simulate_threshold_alert (meter : Int) (units : ℚ) (ts : Timestamp) (db : DBState) :
    (simulate meter units ts db).consumption = db.consumption ++ [⟨meter, units, ts⟩]
    ∧ (simulate meter units ts db).alerts =
        (if THRESHOLD < units then db.alerts ++ [⟨meter, units, "POSSIBLE THEFT", ts⟩]
         else db.alerts) := by
  by_cases h : THRESHOLD < units <;> simp [simulate, h]

/-! ### C3 -/

/-- C3 counterexample: with an empty `METER` table, `simulate` does not
fail and does write — the claimed `NoMetersConfigured` guard does not
exist in the code, which inserts for a hard-coded meter id without
consulting the meter table. -/
theorem simulate_no_meter_check_counterexample :
    emptyDB.meters = []
    ∧ (simulate 101 50 t0 emptyDB).consumption = [⟨101, 50, t0⟩]
    ∧ (simulate 101 50 t0 emptyDB).alerts = [] := by
  refine ⟨rfl, ?_, ?_⟩ <;> norm_num [simulate, emptyDB, THRESHOLD]

/-- C3 (amended): the ingestion operation performs no known-meter
check; even when the meter set is empty it appends the reading (and the
conditional alert) unconditionally and never raises. -/
theorem simulate_writes_even_without_meters (meter : Int) (units : ℚ) (ts : Timestamp)
    (db : DBState) (hm : db.meters = []) :
    (simulate meter units ts db).consumption = db.consumption ++ [⟨meter, units, ts⟩]
    ∧ (simulate meter units ts db).alerts =
        (if THRESHOLD < units then db.alerts ++ [⟨meter, units, "POSSIBLE THEFT", ts⟩]
         else db.alerts)
    ∧ (simulate meter units ts db).meters = [] := by
  by_cases h : THRESHOLD < units <;> simp [simulate, h, hm]

/-- Witness for C3 (amended) at a concrete empty-meter database. -/
theorem simulate_writes_even_without_meters_witness :
    (simulate 101 300 t0 emptyDB).consumption = [⟨101, 300, t0⟩]
    ∧ (simulate 101 300 t0 emptyDB).alerts = [⟨101, 300, "POSSIBLE THEFT", t0⟩] := by
  have h := simulate_writes_even_without_meters 101 300 t0 emptyDB rfl
  refine ⟨?_, ?_⟩
  · rw [h.1]; rfl
  · rw [h.2.1, if_pos (by norm_num [THRESHOLD])]; rfl

/-! ### C4 -/

/-- C4: for every reading set and every filter, the per-area totals of
the area view sum to the total units of the filtered set. -/
theorem area_totals_sum (base : List Reading) (f : Filter) :
    ((area_df (applyFilter f base)).map Prod.snd).sum
      = ((applyFilter f base).map Reading.units).sum :=
  groupSum_sum _ _ _ _

/-! ### C7 -/

/-- C7: a reading survives the filtering step exactly when it satisfies
the conjunction of the three optional constraints, the date constraint
comparing the calendar date inclusively against `[start, end]` (so a
reading dated exactly `start` or exactly `end` is kept). -/
theorem applyFilter_mem_iff (f : Filter) (base : List Reading) (r : Reading) :
    r ∈ applyFilter f base ↔
      r ∈ base
      ∧ (∀ a, f.sel_area = some a → r.area = a)
      ∧ (∀ m, f.sel_meter = some m → toString r.meter_id = m)
      ∧ (∀ s e, f.date_range = some (s, e) →
          s ≤ r.reading_date.day ∧ r.reading_date.day ≤ e) := by
  obtain ⟨oa, om, od⟩ := f
  unfold applyFilter
  rcases oa with _ | a <;> rcases om with _ | m <;> rcases od with _ | ⟨s, e⟩ <;>
    simp [List.mem_filter] <;> tauto

/-! ### C10 -/

/-- C10: the "Normal Usage" metric is the filtered reading count minus
the full (unfiltered) alert count, clamped at zero, hence never
negative — even when alerts outnumber filtered readings. -/
theorem normalUsageMetric_clamped (base : List Reading) (f : Filter) (alerts : List Alert) :
    0 ≤ normalUsageMetric base f alerts
    ∧ ((alerts.length : Int) ≤ (applyFilter f base).length →
        normalUsageMetric base f alerts
          = ((applyFilter f base).length : Int) - alerts.length)
    ∧ (((applyFilter f base).length : Int) < alerts.length →
        normalUsageMetric base f alerts = 0) := by
  unfold normalUsageMetric
  refine ⟨le_max_right _ _, fun h => ?_, fun h => ?_⟩
  · exact max_eq_left (by omega)
  · exact max_eq_right (by omega)

/-- Witness for C10 with more alerts than filtered readings. -/
theorem normalUsageMetric_clamped_witness :
    0 ≤ normalUsageMetric [rW] fAll [aW1, aW2]
    ∧ normalUsageMetric [rW] fAll [aW1, aW2] = 0 := by
  have h := normalUsageMetric_clamped [rW] fAll [aW1, aW2]
  exact ⟨h.1, h.2.2 (by norm_num [applyFilter, fAll])⟩

/-! ### The rolling average -/

theorem rolling3_length (l : List ℚ) : (rolling3 l).length = l.length := by
  unfold rolling3
  rw [List.length_map, List.length_range]

/-- The rolling column at index `i + 2` in terms of the three window
entries. -/
theorem rolling3_get (l : List ℚ) (i : Nat) :
    (rolling3 l).get? (i + 2) =
      match l.get? i, l.get? (i + 1), l.get? (i + 2) with
      | some a, some b, some c => some (some ((a + b + c) / 3))
      | _, _, _ => none := by
  by_cases h : i + 2 < l.length
  · unfold rolling3
    rw [List.get?_map, List.get?_range h]
    have h2 : i + 2 - 2 = i := by omega
    have h1 : i + 2 - 1 = i + 1 := by omega
    rw [Option.map_some']
    rw [if_neg (by omega), h2, h1]
    rw [List.get?_eq_get (show i < l.length by omega),
      List.get?_eq_get (show i + 1 < l.length by omega),
      List.get?_eq_get h]
  · rw [List.get?_eq_none.mpr (by rw [rolling3_length]; omega)]
    have hk : l.get? (i + 2) = none := List.get?_eq_none.mpr (by omega)
    rw [hk]
    rcases l.get? i with _ | a <;> rcases l.get? (i + 1) with _ | b <;> rfl

/-- The first two rolling entries are undefined. -/
theorem rolling3_take_two (l : List ℚ) (h : 2 ≤ l.length) :
    (rolling3 l).take 2 = [none, none] := by
  unfold rolling3
  rw [← List.map_take, List.take_range, Nat.min_eq_left h]
  rfl

/-- When the trend table has at least three rows, the `rolling_avg`
column of the smoothed table is exactly `rolling3` of the summed
series. -/
theorem smoothed_avg_col (filtered : List Reading) (h : 3 ≤ (trend_df filtered).length) :
    (smoothed_df filtered).map (fun p => p.2.2)
      = rolling3 ((trend_df filtered).map Prod.snd) := by
  unfold smoothed_df
  rw [if_pos h, List.map_map]
  exact List.map_snd_zip _ _ (by rw [rolling3_length, List.length_map])

/-! ### C5 -/

/-- C5: every defined value of the `rolling_avg` column of the smoothed
trend is the mean of the three window entries of the summed series, and
lies between their minimum and maximum. -/
theorem smoothed_rolling_avg_bounds (filtered : List Reading) (i : Nat) (x : ℚ)
    (hx : ((smoothed_df filtered).map fun p => p.2.2).get? (i + 2) = some (some x)) :
    ∃ a b c, ((trend_df filtered).map Prod.snd).get? i = some a
      ∧ ((trend_df filtered).map Prod.snd).get? (i + 1) = some b
      ∧ ((trend_df filtered).map Prod.snd).get? (i + 2) = some c
      ∧ x = (a + b + c) / 3
      ∧ min a (min b c) ≤ x ∧ x ≤ max a (max b c) := by
  have h3 : 3 ≤ (trend_df filtered).length := by
    by_contra hlt
    rw [show smoothed_df filtered = [] by unfold smoothed_df; rw [if_neg hlt]] at hx
    simp at hx
  rw [smoothed_avg_col filtered h3, rolling3_get] at hx
  rcases hi : ((trend_df filtered).map Prod.snd).get? i with _ | a <;> rw [hi] at hx <;>
    rcases hj : ((trend_df filtered).map Prod.snd).get? (i + 1) with _ | b <;> rw [hj] at hx <;>
    rcases hk : ((trend_df filtered).map Prod.snd).get? (i + 2) with _ | c <;> rw [hk] at hx <;>
    try exact Option.noConfusion hx
  simp only [Option.some.injEq] at hx
  refine ⟨a, b, c, rfl, rfl, rfl, hx.symm, ?_, ?_⟩
  · have ha : min a (min b c) ≤ a := min_le_left _ _
    have hb : min a (min b c) ≤ b := le_trans (min_le_right _ _) (min_le_left _ _)
    have hc : min a (min b c) ≤ c := le_trans (min_le_right _ _) (min_le_right _ _)
    rw [← hx]
    linarith
  · have ha : a ≤ max a (max b c) := le_max_left _ _
    have hb : b ≤ max a (max b c) := le_trans (le_max_left _ _) (le_max_right _ _)
    have hc : c ≤ max a (max b c) := le_trans (le_max_right _ _) (le_max_right _ _)
    rw [← hx]
    linarith

/-- A small three-day reading set for the rolling-average witnesses. -/
def rDay0 : Reading := ⟨"Chennai", 101, 1, ⟨0, 8, 0, 0⟩⟩

def rDay1 : Reading := ⟨"Chennai", 101, 2, ⟨1, 8, 0, 0⟩⟩

def rDay2 : Reading := ⟨"Chennai", 101, 3, ⟨2, 8, 0, 0⟩⟩

/-- The summed trend series of the three-day sample, evaluated. -/
theorem trend_df_sample :
    trend_df [rDay0, rDay1, rDay2]
      = [(⟨0, 8, 0, 0⟩, 1), (⟨1, 8, 0, 0⟩, 2), (⟨2, 8, 0, 0⟩, 3)] := by
  unfold trend_df groupSum
  have hd : (([rDay0, rDay1, rDay2].map fun r => r.reading_date).dedup.insertionSort
      Timestamp.le) = [⟨0, 8, 0, 0⟩, ⟨1, 8, 0, 0⟩, ⟨2, 8, 0, 0⟩] := by decide
  rw [hd]
  norm_num [rDay0, rDay1, rDay2, List.filter]

/-- Witness for C5 at the three-day sample, window mean `2`. -/
theorem smoothed_rolling_avg_bounds_witness :
    ∃ a b c, ((trend_df [rDay0, rDay1, rDay2]).map Prod.snd).get? 0 = some a
      ∧ ((trend_df [rDay0, rDay1, rDay2]).map Prod.snd).get? 1 = some b
      ∧ ((trend_df [rDay0, rDay1, rDay2]).map Prod.snd).get? 2 = some c
      ∧ (2 : ℚ) = (a + b + c) / 3
      ∧ min a (min b c) ≤ (2 : ℚ) ∧ (2 : ℚ) ≤ max a (max b c) := by
  apply smoothed_rolling_avg_bounds [rDay0, rDay1, rDay2] 0 2
  rw [smoothed_avg_col _ (by rw [trend_df_sample]; norm_num), trend_df_sample]
  norm_num [rolling3, List.range_succ]

/-! ### C9 -/

/-- C9: the smoothed trend is computed over `trend_df`, the series in
which readings sharing a timestamp are summed into one row per
timestamp (keys are distinct and each row carries the group sum); the
rolling column exists only when that series has at least three rows,
equals `rolling3` of the summed series, and its first two entries are
undefined. -/
theorem smoothed_over_summed_series (filtered : List Reading) :
    ((trend_df filtered).length < 3 → smoothed_df filtered = [])
    ∧ (3 ≤ (trend_df filtered).length →
        (smoothed_df filtered).map (fun p => (p.1, p.2.1)) = trend_df filtered
        ∧ (smoothed_df filtered).map (fun p => p.2.2)
            = rolling3 ((trend_df filtered).map Prod.snd)
        ∧ ((smoothed_df filtered).map fun p => p.2.2).take 2 = [none, none])
    ∧ ((trend_df filtered).map Prod.fst).Nodup
    ∧ ∀ t u, (t, u) ∈ trend_df filtered ↔
        ((∃ r ∈ filtered, r.reading_date = t)
         ∧ u = ((filtered.filter fun r => decide (r.reading_date = t)).map
                  Reading.units).sum) := by
  refine ⟨fun hlt => ?_, fun hge => ⟨?_, smoothed_avg_col filtered hge, ?_⟩, ?_, fun t u => ?_⟩
  · unfold smoothed_df
    rw [if_neg (by omega)]
  · unfold smoothed_df
    rw [if_pos hge, List.map_map]
    exact List.map_fst_zip _ _ (by rw [rolling3_length, List.length_map])
  · rw [smoothed_avg_col filtered hge]
    exact rolling3_take_two _ (by rw [List.length_map]; omega)
  · have h1 : (trend_df filtered).map Prod.fst
        = (filtered.map fun r => r.reading_date).dedup.insertionSort Timestamp.le := by
      unfold trend_df
      exact groupSum_map_fst Timestamp.le (fun r => r.reading_date) Reading.units filtered
    rw [h1]
    exact ((List.perm_insertionSort _ _).nodup_iff).mpr (List.nodup_dedup _)
  · unfold trend_df
    exact mem_groupSum Timestamp.le (fun r => r.reading_date) Reading.units filtered t u

/-- Witness for C9: one reading gives no smoothed table; the three-day
sample has its first two rolling entries undefined. -/
theorem smoothed_over_summed_series_witness :
    smoothed_df [rDay0] = []
    ∧ ((smoothed_df [rDay0, rDay1, rDay2]).map fun p => p.2.2).take 2 = [none, none] := by
  refine ⟨(smoothed_over_summed_series [rDay0]).1 (by decide), ?_⟩
  exact ((smoothed_over_summed_series [rDay0, rDay1, rDay2]).2.1
    (by rw [trend_df_sample]; norm_num)).2.2

/-! ### C2 -/

/-- A reading taken at hour 2 with 1 unit. -/
def rHour2 : Reading := ⟨"Chennai", 101, 1, ⟨0, 2, 0, 0⟩⟩

/-- A reading taken at hour 10 with 2 units. -/
def rHour10 : Reading := ⟨"Chennai", 101, 2, ⟨0, 10, 0, 0⟩⟩

/-- C2 counterexample: with readings at hours 2 and 10, the peak-hour
table puts hour `"10"` before hour `"2"` (pandas sorts the stringified
hour lexicographically), so the output is not ordered by ascending
numeric hour as claimed. -/
theorem hour_df_not_numeric_order :
    hour_df [rHour2, rHour10] = [("10", 2), ("2", 1)]
    ∧ hour_df [rHour2, rHour10] ≠ [("2", 1), ("10", 2)] := by
  have hle : ¬ ("2" : String) ≤ "10" := by
    rw [String.le_iff_toList_le]; decide
  have h1 : hour_df [rHour2, rHour10] = [("10", 2), ("2", 1)] := by
    unfold hour_df groupSum
    have hk : ((heat_df [rHour2, rHour10]).map HeatRow.hour).dedup = ["2", "10"] := by decide
    have hs : List.insertionSort (· ≤ ·) ["2", "10"] = ["10", "2"] := by
      simp only [List.insertionSort, List.orderedInsert]
      rw [if_neg hle]
    rw [hk, hs]
    have hf10 : (heat_df [rHour2, rHour10]).filter (fun a => decide (a.hour = "10"))
        = [⟨"Chennai", 101, 2, ⟨0, 10, 0, 0⟩, "10"⟩] := by decide
    have hf2 : (heat_df [rHour2, rHour10]).filter (fun a => decide (a.hour = "2"))
        = [⟨"Chennai", 101, 1, ⟨0, 2, 0, 0⟩, "2"⟩] := by decide
    simp only [List.map_cons, List.map_nil, hf10, hf2]
    norm_num
  refine ⟨h1, ?_⟩
  rw [h1]
  decide

/-- C2 (amended): the peak-hour view does group the filtered readings
by hour-of-day alone and sums units per hour, but the hours are first
cast to decimal strings, and the output is ordered by the lexicographic
order of those strings — which differs from ascending numeric order as
soon as one- and two-digit hours are both present. -/
theorem hour_df_lex_order (filtered : List Reading) :
    ((hour_df filtered).map Prod.fst).Sorted (· ≤ ·)
    ∧ ∀ h u, (h, u) ∈ hour_df filtered ↔
        ((∃ r ∈ filtered, toString r.reading_date.hour = h)
         ∧ u = ((filtered.filter fun r =>
              decide (toString r.reading_date.hour = h)).map Reading.units).sum) := by
  constructor
  · have h1 : (hour_df filtered).map Prod.fst
        = ((heat_df filtered).map HeatRow.hour).dedup.insertionSort (· ≤ ·) := by
      unfold hour_df
      exact groupSum_map_fst _ _ _ _
    rw [h1]
    exact List.sorted_insertionSort _ _
  · intro h u
    have h2 := mem_groupSum (α := HeatRow) (· ≤ ·) HeatRow.hour HeatRow.units
      (heat_df filtered) h u
    unfold hour_df
    rw [h2]
    have hex : (∃ a ∈ heat_df filtered, a.hour = h)
        ↔ (∃ r ∈ filtered, toString r.reading_date.hour = h) := by
      unfold heat_df
      simp
    have hsum : ((heat_df filtered).filter fun a => decide (a.hour = h)).map HeatRow.units
        = (filtered.filter fun r => decide (toString r.reading_date.hour = h)).map
            Reading.units := by
      unfold heat_df
      rw [List.filter_map, List.map_map]
      rfl
    rw [hex, hsum]

/-! ### C6 -/

/-- A filter whose area matches no reading. -/
def fNowhere : Filter := ⟨some "Nowhere", none, none⟩

/-- C6 counterexample: a filter matching zero readings does not make
every view empty — the alert-trend view is computed from the full alert
table, which here is nonempty. -/
theorem alert_view_nonempty_counterexample :
    applyFilter fNowhere [rW] = [] ∧ tdf [aW1] = [(0, 1)] := by
  constructor
  · decide
  · decide

/-- C6 (amended): on an empty `base_df` the script stops before
computing any view; for a filter matching zero readings the five
reading-derived tables are empty, while the alert-trend view reflects
the full alert table and is empty exactly when there are no alerts. -/
theorem views_empty_on_empty_filtered (base : List Reading) (alerts : List Alert) (f : Filter) :
    (base = [] → dashboard base alerts f = none)
    ∧ (applyFilter f base = [] →
        area_df (applyFilter f base) = []
        ∧ trend_df (applyFilter f base) = []
        ∧ smoothed_df (applyFilter f base) = []
        ∧ heat_df (applyFilter f base) = []
        ∧ hour_df (applyFilter f base) = []
        ∧ (tdf alerts = [] ↔ alerts = [])) := by
  constructor
  · intro h
    unfold dashboard
    rw [if_pos h]
  · intro h
    rw [h]
    refine ⟨rfl, rfl, rfl, rfl, rfl, ?_⟩
    unfold tdf
    exact groupCount_eq_nil _ _ _

/-- Witness for C6 (amended) on an empty base table with one alert. -/
theorem views_empty_on_empty_filtered_witness :
    dashboard [] [aW1] fAll = none
    ∧ area_df (applyFilter fAll []) = []
    ∧ (tdf [aW1] = [] ↔ ([aW1] : List Alert) = []) := by
  have h := views_empty_on_empty_filtered [] [aW1] fAll
  have h2 := h.2 (by rfl)
  exact ⟨h.1 rfl, h2.1, h2.2.2.2.2.2⟩

/-! ### C8 -/

/-- C8: the alert-trend view does not depend on the reading filter or
the reading set; it groups the full alert table by the calendar date of
`alert_date`, outputs one `(date, count)` row per distinct date, and is
ordered by ascending date. -/
theorem alert_trend_unfiltered (base base' : List Reading) (f f' : Filter)
    (alerts : List Alert) :
    alertTrendView base f alerts = alertTrendView base' f' alerts
    ∧ ((tdf alerts).map Prod.fst).Sorted (· ≤ ·)
    ∧ ∀ d c, (d, c) ∈ tdf alerts ↔
        ((∃ a ∈ alerts, a.alert_date.day = d)
         ∧ c = (alerts.filter fun a => decide (a.alert_date.day = d)).length) := by
  refine ⟨rfl, ?_, fun d c => ?_⟩
  · have h1 : (tdf alerts).map Prod.fst
        = (alerts.map fun a => a.alert_date.day).dedup.insertionSort (· ≤ ·) := by
      unfold tdf
      exact groupCount_map_fst _ _ _
    rw [h1]
    exact List.sorted_insertionSort _ _
  · unfold tdf
    exact mem_groupCount _ _ _ d c

end PowerGuard
